import Mathlib

/-!
Shallow embedding of `coverage/debug.py` (the debug-output subsystem of
coveragepy) and proofs about its specified behaviour.

Python strings are modelled as `List Char`; Python `None`/values as `Option`;
the process-wide singleton stored in `sys.modules` as an explicit state record
threaded through `get_one`.
-/

namespace CoverageDebug

/-! ### Basic text helpers -/

/-- The ASCII whitespace characters stripped by Python `str.rstrip()`
(the subset relevant to this code: tab `0x09`, newline `0x0a`, vertical tab,
form feed, carriage return `0x0d`, and space `0x20`). -/
def pyWhitespace (c : Char) : Bool :=
  ('\x09' ≤ c && c ≤ '\x0d') || c == '\x20'

/-- `text.rstrip()` — the text with trailing whitespace removed
(`clean_text` in `filter_text`). -/
def rstripClean (text : List Char) : List Char :=
  (text.reverse.dropWhile pyWhitespace).reverse

/-- `text[len(clean_text):]` — the trailing whitespace removed by `rstrip`
(`ending` in `filter_text`). -/
def rstripEnding (text : List Char) : List Char :=
  (text.reverse.takeWhile pyWhitespace).reverse

theorem rstripClean_append_ending (text : List Char) :
    rstripClean text ++ rstripEnding text = text := by
  unfold rstripClean rstripEnding
  rw [← List.reverse_append, List.takeWhile_append_dropWhile, List.reverse_reverse]

/-- Python `str.splitlines()` restricted to `"\n"` separators (the only line
boundary occurring in this code): split on newlines, with no trailing empty
line for text ending in a newline, and `[]` for the empty string. -/
def splitlines : List Char → List (List Char)
  | [] => []
  | c :: cs =>
    if c = '\n' then [] :: splitlines cs
    else
      match splitlines cs with
      | [] => [[c]]
      | l :: ls => (c :: l) :: ls

theorem splitlines_nil : splitlines [] = [] := rfl

/-- A one-line nonempty text splits into itself. -/
theorem splitlines_no_newline (l : List Char) (hne : l ≠ []) (h : '\n' ∉ l) :
    splitlines l = [l] := by
  induction l with
  | nil => exact absurd rfl hne
  | cons c cs ih =>
    have hc : c ≠ '\n' := fun he => h (by simp [he])
    by_cases hcs : cs = []
    · subst hcs
      simp [splitlines, hc]
    · have := ih hcs (fun hm => h (by simp [hm]))
      simp [splitlines, hc, this]

theorem splitlines_append_newline (l rest : List Char) (h : '\n' ∉ l) :
    splitlines (l ++ '\n' :: rest) = l :: splitlines rest := by
  induction l with
  | nil => simp [splitlines]
  | cons c cs ih =>
    have hc : c ≠ '\n' := fun he => h (by simp [he])
    have hih := ih (fun hm => h (by simp [hm]))
    simp only [List.cons_append, splitlines, hc, if_neg, List.append_eq]
    rw [hih]
    simp

/-- One pass of the inner loop of `filter_text` for a single (stateless)
filter `fn`: split into lines, run the filter on each line (a filter may
expand one line into several), reassemble with `"\n".join`. -/
def filter_pass (fn : List Char → List Char) (t : List Char) : List Char :=
  List.intercalate ['\n'] (((splitlines t).map fun line => splitlines (fn line)).flatten)

/-- `filter_text(text, filters)` from `coverage/debug.py`: strip trailing
whitespace, run each filter pass in turn on the stripped text, reattach the
saved trailing whitespace. -/
def filter_text (text : List Char) (filters : List (List Char → List Char)) : List Char :=
  (filters.foldl (fun t fn => filter_pass fn t) (rstripClean text)) ++ rstripEnding text

/-! ### DebugControl -/

/-- The global force-list of debugging options (`FORCED_DEBUG` in the source);
it ships empty.  Theorems quantify over an arbitrary force-list where the
claim speaks of "the global force-list". -/
def FORCED_DEBUG : List String := []

/-- `DebugControl.__init__`: `self.options = list(options) + FORCED_DEBUG`. -/
def mkOptions (options forced : List String) : List String := options ++ forced

/-- The option/suppression state of a `DebugControl`
(`self.options` and `self.suppress_callers`). -/
structure DebugControl where
  options : List String
  suppress_callers : Bool
deriving Repr, DecidableEq

/-- `DebugControl.should`: false for `"callers"` while suppression is active,
otherwise membership in `self.options`. -/
def DebugControl.should (dc : DebugControl) (option : String) : Bool :=
  if (option == "callers") && dc.suppress_callers then false
  else dc.options.contains option

/-- `DebugControl.without_callers`: a scoped block.  The body receives the
controller with `suppress_callers` set to true and returns the (possibly
modified) controller together with a normal or exceptional outcome; the
`finally` clause restores `suppress_callers` to its prior value either way. -/
def DebugControl.without_callers {E : Type} (dc : DebugControl)
    (body : DebugControl → DebugControl × Except E Unit) :
    DebugControl × Except E Unit :=
  let old := dc.suppress_callers
  let res := body { dc with suppress_callers := true }
  ({ res.1 with suppress_callers := old }, res.2)

/-! ### NoDebugging -/

/-- `NoDebugging.should`: always false. -/
def NoDebugging.should (_option : String) : Bool := false

/-- The message of the `AssertionError` raised by `NoDebugging.write`. -/
def noDebuggingAssertion : String := "NoDebugging.write should never be called."

/-- `NoDebugging.write`: unconditionally raises `AssertionError`. -/
def NoDebugging.write (_msg : String) : Except String Unit :=
  .error noDebuggingAssertion

/-! ### DebugOutputFile singleton lookup (`get_one`) -/

/-- The two standard streams. -/
inductive StdStream
  | stdout
  | stderr
deriving Repr, DecidableEq

/-- The output destination a sink is built around. -/
inductive Dest
  | givenStream (streamId : Nat)
  | openFile (name : String)
  | std (s : StdStream)
deriving Repr, DecidableEq

/-- A constructed `DebugOutputFile`.  Each construction receives a fresh `id`
so distinct constructions are distinguishable; the message filters are not
recorded here (no claim about `get_one` depends on them). -/
structure Sink where
  id : Nat
  dest : Dest
  show_process : Bool
deriving Repr, DecidableEq

/-- The read-only inputs of destination resolution:
`os.environ.get("COVERAGE_DEBUG_FILE")` and the compiled-in
`FORCED_DEBUG_FILE` override. -/
structure DebugEnv where
  coverageDebugFile : Option String
  forcedDebugFile : Option String
deriving Repr, DecidableEq

/-- The process-wide singleton slot stashed in `sys.modules`
(`the_one_and_is_interim`), plus a counter supplying fresh sink ids. -/
structure SingletonState where
  the_one : Option (Sink × Bool)
  nextId : Nat
deriving Repr, DecidableEq

/-- `DebugOutputFile._get_singleton_data`: the stored pair, or the
`getattr` default `(None, True)` when the slot is absent. -/
def getSingletonData (s : SingletonState) : Option Sink × Bool :=
  match s.the_one with
  | none => (none, true)
  | some (o, i) => (some o, i)

/-- Destination resolution in `get_one` when no `fileobj` is passed:
the explicit `file_name` argument, else
`os.environ.get("COVERAGE_DEBUG_FILE", FORCED_DEBUG_FILE)` with
`"stdout"`/`"stderr"` naming the standard streams, a truthy (nonempty) value
opened as a file, and `sys.stderr` otherwise. -/
def resolveDest (file_name : Option String) (env : DebugEnv) : Dest :=
  match file_name with
  | some n => .openFile n
  | none =>
    let fn : Option String :=
      match env.coverageDebugFile with
      | some v => some v
      | none => env.forcedDebugFile
    if fn = some "stdout" then .std .stdout
    else if fn = some "stderr" then .std .stderr
    else
      match fn with
      | some v => if v = "" then .std .stderr else .openFile v
      | none => .std .stderr

/-- `DebugOutputFile.get_one`: an explicit `fileobj` yields a fresh sink and
leaves the singleton untouched; otherwise the stored singleton is returned
when present and non-interim, and a new sink is built (with the resolved
destination) and stored with its `interim` flag when absent or interim. -/
def get_one (fileobj : Option Nat) (file_name : Option String)
    (show_process : Bool) (interim : Bool) (env : DebugEnv)
    (s : SingletonState) : Sink × SingletonState :=
  match fileobj with
  | some fo =>
    (⟨s.nextId, .givenStream fo, show_process⟩, { s with nextId := s.nextId + 1 })
  | none =>
    match getSingletonData s with
    | (some o, false) => (o, s)
    | _ =>
      let snk : Sink := ⟨s.nextId, resolveDest file_name env, show_process⟩
      (snk, { the_one := some (snk, interim), nextId := s.nextId + 1 })

/-! ### pid/tid annotation (`add_pid_and_tid`) -/

/-- Decimal digit characters of `n`, most significant first (the characters
of Python `str(n)` for `n ≥ 0`), via explicit fuel (structural recursion so
terms reduce in the kernel). -/
def decDigitsAux : Nat → Nat → List Char
  | 0, _ => []
  | fuel + 1, n =>
    if n < 10 then [Nat.digitChar n]
    else decDigitsAux fuel (n / 10) ++ [Nat.digitChar (n % 10)]

/-- The decimal rendering of `n` (`n + 1` fuel always suffices). -/
def natDecDigits (n : Nat) : List Char := decDigitsAux (n + 1) n

/-- `f"{n:5d}"`: decimal digits right-aligned in a 5-wide space-padded
field. -/
def pyFmtD5 (n : Nat) : List Char :=
  List.replicate (5 - (natDecDigits n).length) ' ' ++ natDecDigits n

/-- `f"{n:04x}"` for `n < 2 ^ 16` (the range `short_id` produces): four
lowercase hex digits, zero padded. -/
def hex4 (n : Nat) : List Char :=
  [Nat.digitChar (n / 4096 % 16), Nat.digitChar (n / 256 % 16),
   Nat.digitChar (n / 16 % 16), Nat.digitChar (n % 16)]

/-- `short_id`: fold a 64-bit id into 16 bits, XORing the four 16-bit
slices (the `for offset in range(0, 64, 16)` loop unrolled) and masking. -/
def short_id (id64 : Nat) : Nat :=
  ((((0 ^^^ (id64 >>> 0)) ^^^ (id64 >>> 16)) ^^^ (id64 >>> 32)) ^^^ (id64 >>> 48))
    &&& 0xFFFF

/-- `add_pid_and_tid`: prefix a line with
`f"{os.getpid():5d}.{short_id(_thread.get_ident()):04x}: "`. -/
def add_pid_and_tid (pid tidIdent : Nat) (text : List Char) : List Char :=
  pyFmtD5 pid ++ '.' :: (hex4 (short_id tidIdent) ++ ':' :: ' ' :: text)

/-- The filter list assembled by `DebugControl.__init__`: `add_pid_and_tid`
exactly when the `"pid"` option is enabled (`suppress_callers` starts
false). -/
def debugControlFilters (options forced : List String) (pid tidIdent : Nat) :
    List (List Char → List Char) :=
  if (DebugControl.mk (mkOptions options forced) false).should "pid"
  then [add_pid_and_tid pid tidIdent] else []

/-- The buffer contents after `DebugControlString(["pid"]).write(msg)`:
the controller passes its `StringIO` explicitly, so `get_one` builds a fresh
sink (no banner, `"process"` is off) whose only filter is `add_pid_and_tid`;
`DebugControl.write` sends `msg + "\n"` through `filter_text`, and the
`"self"`/`"callers"` additions are disabled for this option set. -/
def debugControlStringPidOutput (pid tidIdent : Nat) (msg : List Char) : List Char :=
  filter_text (msg ++ ['\n']) (debugControlFilters ["pid"] FORCED_DEBUG pid tidIdent)

/-- Lowercase-hex-digit character class `[0-9a-f]`. -/
def isLowerHexDigit (c : Char) : Bool :=
  c.isDigit || ('a' ≤ c && c ≤ 'f')

/-- Decides the claim's regular expression `^\d+\.[0-9a-f]{4}: hello\n$`. -/
def matchesPidHello (cs : List Char) : Bool :=
  let ds := cs.takeWhile Char.isDigit
  match cs.dropWhile Char.isDigit with
  | '.' :: h1 :: h2 :: h3 :: h4 :: rest =>
    !ds.isEmpty && isLowerHexDigit h1 && isLowerHexDigit h2
      && isLowerHexDigit h3 && isLowerHexDigit h4
      && decide (rest = ": hello\n".toList)
  | _ => false

/-- Decides the amended pattern `^ *\d+\.[0-9a-f]{4}: hello\n$` — leading
spaces from the 5-wide pid field allowed. -/
def matchesPidHelloPadded (cs : List Char) : Bool :=
  matchesPidHello (cs.dropWhile (fun c => c == ' '))

/-! ### Claims C1, C3, C8, C9 -/

/-- C1: for every option collection `O` (merged with the global force-list)
and category `c`, `should c` is true iff `c` is in the merged enabled list,
except that `should "callers"` is false whenever suppression is active; names
not in the list yield false. -/
theorem should_iff_membership (O forced : List String) (sup : Bool) (c : String) :
    (DebugControl.mk (mkOptions O forced) sup).should c = true ↔
      (c ∈ mkOptions O forced ∧ ¬(c = "callers" ∧ sup = true)) := by
  unfold DebugControl.should
  by_cases hc : c = "callers"
  · subst hc
    cases sup <;> simp
  · have hb : (c == "callers") = false := by simp [hc]
    simp [hb, hc]

/-- C3: `without_callers` runs its body with `suppress_callers` set to true and
restores the prior value when the block exits, both on normal completion and
when the body ends in an error; the body's outcome is propagated unchanged. -/
theorem without_callers_restores {E : Type} (dc : DebugControl)
    (body : DebugControl → DebugControl × Except E Unit) :
    (dc.without_callers body).1.suppress_callers = dc.suppress_callers
    ∧ (dc.without_callers body).2 = (body { dc with suppress_callers := true }).2 :=
  ⟨rfl, rfl⟩

/-- C8: `filter_text` with an empty filter list is the identity, trailing
whitespace included — the strip and reattach phases compose to the identity
when no filter runs. -/
theorem filter_text_empty_id (text : List Char) :
    filter_text text [] = text := by
  unfold filter_text
  simpa using rstripClean_append_ending text

/-- C9: on the null controller, `should` is false for every option name, and
`write` raises the fatal assertion error for every message — never a silent
no-op. -/
theorem noDebugging_spec :
    (∀ o : String, NoDebugging.should o = false)
    ∧ (∀ msg : String, NoDebugging.write msg = Except.error noDebuggingAssertion) :=
  ⟨fun _ => rfl, fun _ => rfl⟩

/-! ### CwdTracker and the `show_process` banner -/

/-- Python `repr` of a string that contains no quote or escape characters
(its only uses here are on paths): the text wrapped in single quotes. -/
def pyStrRepr (s : List Char) : List Char := '\'' :: (s ++ ['\''])

/-- `CwdTracker.__init__`: the last-seen directory starts unset (`None`). -/
def CwdTracker.init : Option (List Char) := none

/-- `CwdTracker.filter`: when the observed cwd differs from the last-seen
value, prepend a `f"cwd is now {cwd!r}\n"` line and record the observation;
otherwise return the text unchanged.  `st` is `self.cwd`, `cwd` the
`os.getcwd()` observation. -/
def cwdFilter (st : Option (List Char)) (cwd : List Char) (text : List Char) :
    List Char × Option (List Char) :=
  if some cwd ≠ st then
    (("cwd is now ".toList ++ pyStrRepr cwd ++ ['\n']) ++ text, some cwd)
  else (text, st)

/-- The inner loop of `filter_text` for the stateful cwd filter: run the
filter on each line, splitting any multi-line result, threading the
tracker's state across the lines. -/
def cwdPassLines (cwd : List Char) :
    Option (List Char) → List (List Char) → List (List Char) × Option (List Char)
  | st, [] => ([], st)
  | st, line :: rest =>
    let r := cwdFilter st cwd line
    let rr := cwdPassLines cwd r.2 rest
    (splitlines r.1 ++ rr.1, rr.2)

/-- One `filter_text` pass of the cwd filter over stripped text: split into
lines, filter each, reassemble with `"\n".join`. -/
def cwdPass (cwd : List Char) (st : Option (List Char)) (t : List Char) :
    List Char × Option (List Char) :=
  let r := cwdPassLines cwd st (splitlines t)
  (List.intercalate ['\n'] r.1, r.2)

/-- `DebugOutputFile.write` for a sink built with `show_process=True` and an
empty caller filter list, so the chain is exactly `[CwdTracker().filter]`
(inserted at the front): `filter_text` with the tracker state threaded. -/
def sinkWriteSP (cwd : List Char) (st : Option (List Char)) (text : List Char) :
    List Char × Option (List Char) :=
  let r := cwdPass cwd st (rstripClean text)
  (r.1 ++ rstripEnding text, r.2)

/-- The content (without trailing newline) of the first announcement:
`f"New process: executable: {sys.executable!r}"`. -/
def bannerLine1 (exe : List Char) : List Char :=
  "New process: executable: ".toList ++ pyStrRepr exe

/-- The content of the second announcement:
`"New process: cmd: {!r}".format(getattr(sys, "argv", None))`; the rendered
`repr` of the argument list is kept abstract as `argvRepr`. -/
def bannerLine2 (argvRepr : List Char) : List Char :=
  "New process: cmd: ".toList ++ argvRepr

/-- The content of the third announcement:
`f"New process: pid: {os.getpid()!r}, parent pid: {os.getppid()!r}"`. -/
def bannerLine3 (pid pp : Nat) : List Char :=
  "New process: pid: ".toList ++ natDecDigits pid
    ++ ", parent pid: ".toList ++ natDecDigits pp

/-- The `f"cwd is now {cwd!r}\n"` announcement line (without its newline). -/
def cwdAnnouncement (cwd : List Char) : List Char :=
  "cwd is now ".toList ++ pyStrRepr cwd

/-- The `self.write(...)` announcement calls of `DebugOutputFile.__init__`
when `show_process` is true: executable, command line, and — only when the
platform has `os.getppid` (`ppid = some _`) — the pid/parent-pid line. -/
def bannerWrites (exe argvRepr : List Char) (pid : Nat) (ppid : Option Nat) :
    List (List Char) :=
  [bannerLine1 exe ++ ['\n'], bannerLine2 argvRepr ++ ['\n']]
  ++ (match ppid with
      | some pp => [bannerLine3 pid pp ++ ['\n']]
      | none => [])

/-- The construction side effect of `DebugOutputFile.__init__` with
`show_process=True`: the cwd tracker is inserted (state starting unset), then
each announcement line is written through `self.write`, accumulating output
and threading the tracker state. -/
def sinkInitOutput (exe argvRepr : List Char) (pid : Nat) (ppid : Option Nat)
    (cwd : List Char) : List Char × Option (List Char) :=
  (bannerWrites exe argvRepr pid ppid).foldl
    (fun acc w =>
      let r := sinkWriteSP cwd acc.2 w
      (acc.1 ++ r.1, r.2))
    ([], CwdTracker.init)

/-- The number of banner lines (lines starting `"New process: "`) in a block
of output. -/
def bannerLineCount (out : List Char) : Nat :=
  ((splitlines out).filter (fun l => "New process: ".toList.isPrefixOf l)).length

/-! ### short_stack -/

/-- A frame summary as returned by `inspect.stack()` (most recent first;
element 0 is `short_stack`'s own frame): `t[1]` the file path, `t[2]` the
line number, `t[3]` the function name. -/
structure FrameSummary where
  filename : List Char
  lineno : Nat
  function : List Char
deriving Repr, DecidableEq

/-- Python list slicing `l[start:stop:-1]` for an optional non-negative
`start` and a non-negative `stop` (the forms `short_stack` uses): the
elements at indices `min start (len-1)` down to `stop + 1`, in that order. -/
def pySliceRev (l : List FrameSummary) (start : Option Nat) (stop : Nat) :
    List FrameSummary :=
  ((l.take ((match start with
             | none => l.length - 1
             | some s => min s (l.length - 1)) + 1)).drop (stop + 1)).reverse

/-- `"%30s"`: pad left with spaces to a 30-wide field. -/
def pyFmtS30 (s : List Char) : List Char :=
  List.replicate (30 - s.length) ' ' ++ s

/-- One rendered frame of `short_stack`:
`"%30s : %s:%d" % (t[3], t[1], t[2])`. -/
def frameLine (t : FrameSummary) : List Char :=
  pyFmtS30 t.function ++ " : ".toList ++ t.filename ++ [':'] ++ natDecDigits t.lineno

/-- The rendering asserted by the specification:
`<function name> : <file path>@<line number>`. -/
def claimFrameLine (t : FrameSummary) : List Char :=
  t.function ++ " : ".toList ++ t.filename ++ ['@'] ++ natDecDigits t.lineno

/-- `short_stack(limit, skip)` as its list of rendered lines:
`inspect.stack()[limit:skip:-1]` mapped through the line format. -/
def shortStackLines (stack : List FrameSummary) (limit : Option Nat) (skip : Nat) :
    List (List Char) :=
  (pySliceRev stack limit skip).map frameLine

/-- `short_stack` proper: the rendered lines joined with newlines. -/
def short_stack (stack : List FrameSummary) (limit : Option Nat) (skip : Nat) :
    List Char :=
  List.intercalate ['\n'] (shortStackLines stack limit skip)

/-! ### Supporting lemmas for the pid-prefix claim -/

theorem takeWhile_append_of_all (p : α → Bool) (l1 l2 : List α)
    (h : ∀ c ∈ l1, p c = true) :
    (l1 ++ l2).takeWhile p = l1 ++ l2.takeWhile p := by
  rw [List.takeWhile_append, List.takeWhile_eq_self_iff.mpr h, if_pos rfl]

theorem dropWhile_append_of_all (p : α → Bool) (l1 l2 : List α)
    (h : ∀ c ∈ l1, p c = true) :
    (l1 ++ l2).dropWhile p = l2.dropWhile p := by
  rw [List.dropWhile_append, List.dropWhile_eq_nil_iff.mpr h]
  simp

theorem dropWhile_eq_self_of_head (p : α → Bool) (l : List α)
    (h : ∀ c, l.head? = some c → p c = false) :
    l.dropWhile p = l := by
  cases l with
  | nil => rfl
  | cons a l => simp [List.dropWhile_cons, h a rfl]

theorem takeWhile_eq_nil_of_head (p : α → Bool) (l : List α)
    (h : ∀ c, l.head? = some c → p c = false) :
    l.takeWhile p = [] := by
  cases l with
  | nil => rfl
  | cons a l => simp [List.takeWhile_cons, h a rfl]

theorem digitChar_isDigit : ∀ n, n < 10 → (Nat.digitChar n).isDigit = true := by decide

theorem digitChar_isLowerHex : ∀ n, n < 16 → isLowerHexDigit (Nat.digitChar n) = true := by
  decide

theorem decDigitsAux_ne_nil (fuel n : Nat) : decDigitsAux (fuel + 1) n ≠ [] := by
  unfold decDigitsAux
  split <;> simp

theorem decDigitsAux_all_digit :
    ∀ fuel n, n < fuel → ∀ c ∈ decDigitsAux fuel n, c.isDigit = true := by
  intro fuel
  induction fuel with
  | zero => intro n h; omega
  | succ fuel ih =>
    intro n hn c hc
    unfold decDigitsAux at hc
    split at hc
    · rename_i h10
      simp at hc
      subst hc
      exact digitChar_isDigit n h10
    · rename_i h10
      simp at hc
      rcases hc with hc | hc
      · exact ih (n / 10) (by omega) c hc
      · subst hc
        exact digitChar_isDigit _ (Nat.mod_lt _ (by omega))

theorem natDecDigits_ne_nil (n : Nat) : natDecDigits n ≠ [] :=
  decDigitsAux_ne_nil n n

theorem natDecDigits_all_digit (n : Nat) : ∀ c ∈ natDecDigits n, c.isDigit = true :=
  decDigitsAux_all_digit (n + 1) n (by omega)

theorem isDigit_beq_space_false (c : Char) (h : c.isDigit = true) : (c == ' ') = false := by
  cases hbe : c == ' '
  · rfl
  · have he : c = ' ' := eq_of_beq hbe
    subst he
    exact absurd h (by decide)

theorem intercalate_singleton (sep x : List α) : List.intercalate sep [x] = x := by
  simp [List.intercalate, List.intersperse]

theorem filters_pid_eq (pid tid : Nat) :
    debugControlFilters ["pid"] FORCED_DEBUG pid tid = [add_pid_and_tid pid tid] := rfl

/-- C2: two successive no-stream `get_one` lookups with `interim = false` both
times return the identical sink, and the second call changes nothing (no new
construction) — so at most one current sink exists. -/
theorem get_one_twice_identical (fn fn2 : Option String) (sp sp2 : Bool)
    (env env2 : DebugEnv) (s : SingletonState) :
    (get_one none fn2 sp2 false env2 (get_one none fn sp false env s).2).1
      = (get_one none fn sp false env s).1
    ∧ (get_one none fn2 sp2 false env2 (get_one none fn sp false env s).2).2
      = (get_one none fn sp false env s).2 := by
  rcases s with ⟨one, nid⟩
  rcases one with _ | ⟨o, i⟩
  · simp [get_one, getSingletonData]
  · cases i
    · simp [get_one, getSingletonData]
    · simp [get_one, getSingletonData]

/-- C4: when no valid non-interim singleton exists, `get_one` with no explicit
stream resolves the destination with priority: explicit `file_name` argument,
then `COVERAGE_DEBUG_FILE`, then the compiled-in forced override, then
standard error; `"stdout"`/`"stderr"` as a configured value selects the
standard stream; an explicit stream always yields a fresh sink leaving the
singleton untouched. -/
theorem get_one_dest_resolution (s : SingletonState)
    (hs : ∀ o : Sink × Bool, s.the_one = some o → o.2 = true) :
    (∀ (env : DebugEnv) (fo : Nat) (fn : Option String) (sp i : Bool),
       (get_one (some fo) fn sp i env s).1.dest = Dest.givenStream fo
       ∧ (get_one (some fo) fn sp i env s).2.the_one = s.the_one)
    ∧ (∀ (env : DebugEnv) (n : String) (sp i : Bool),
       (get_one none (some n) sp i env s).1.dest = Dest.openFile n)
    ∧ (∀ (f : Option String) (sp i : Bool),
       (get_one none none sp i ⟨some "stdout", f⟩ s).1.dest = Dest.std .stdout)
    ∧ (∀ (f : Option String) (sp i : Bool),
       (get_one none none sp i ⟨some "stderr", f⟩ s).1.dest = Dest.std .stderr)
    ∧ (∀ (v : String) (f : Option String) (sp i : Bool),
       v ≠ "stdout" → v ≠ "stderr" → v ≠ "" →
       (get_one none none sp i ⟨some v, f⟩ s).1.dest = Dest.openFile v)
    ∧ (∀ sp i : Bool,
       (get_one none none sp i ⟨none, some "stdout"⟩ s).1.dest = Dest.std .stdout)
    ∧ (∀ sp i : Bool,
       (get_one none none sp i ⟨none, some "stderr"⟩ s).1.dest = Dest.std .stderr)
    ∧ (∀ (v : String) (sp i : Bool),
       v ≠ "stdout" → v ≠ "stderr" → v ≠ "" →
       (get_one none none sp i ⟨none, some v⟩ s).1.dest = Dest.openFile v)
    ∧ (∀ sp i : Bool,
       (get_one none none sp i ⟨none, none⟩ s).1.dest = Dest.std .stderr) := by
  have hcreate : ∀ (env : DebugEnv) (fn : Option String) (sp i : Bool),
      (get_one none fn sp i env s).1.dest = resolveDest fn env := by
    intro env fn sp i
    rcases h1 : s.the_one with _ | ⟨o, b⟩
    · simp [get_one, getSingletonData, h1]
    · have hb : b = true := hs (o, b) h1
      subst hb
      simp [get_one, getSingletonData, h1]
  refine ⟨fun env fo fn sp i => ⟨rfl, rfl⟩, ?_, ?_, ?_, ?_, ?_, ?_, ?_, ?_⟩
  · intro env n sp i; rw [hcreate]; rfl
  · intro f sp i; rw [hcreate]; rfl
  · intro f sp i; rw [hcreate]; rfl
  · intro v f sp i h1 h2 h3
    rw [hcreate]
    simp [resolveDest, h1, h2, h3]
  · intro sp i; rw [hcreate]; rfl
  · intro sp i; rw [hcreate]; rfl
  · intro v sp i h1 h2 h3
    rw [hcreate]
    simp [resolveDest, h1, h2, h3]
  · intro sp i; rw [hcreate]; rfl

/-- Witness for C4: at the empty singleton state with
`COVERAGE_DEBUG_FILE="debug.log"`, the resolved destination is the opened
file `debug.log`. -/
theorem get_one_dest_resolution_witness :
    (get_one none none true false ⟨some "debug.log", none⟩ ⟨none, 0⟩).1.dest
      = Dest.openFile "debug.log" :=
  (get_one_dest_resolution ⟨none, 0⟩ (fun o h => nomatch h)).2.2.2.2.1
    "debug.log" none true false (by decide) (by decide) (by decide)

/-- The output of `DebugControlString(["pid"]).write("hello")` is the
pid/tid-prefixed line with its newline reattached. -/
theorem debugControlStringPidOutput_eq (pid tid : Nat) :
    debugControlStringPidOutput pid tid ("hello".toList)
      = add_pid_and_tid pid tid ("hello".toList) ++ ['\n'] := by
  unfold debugControlStringPidOutput
  rw [filters_pid_eq]
  unfold filter_text
  have h1 : rstripClean ("hello".toList ++ ['\n']) = "hello".toList := by decide
  have h2 : rstripEnding ("hello".toList ++ ['\n']) = ['\n'] := by decide
  rw [h1, h2]
  have h3 : List.foldl (fun t fn => filter_pass fn t) ("hello".toList)
      [add_pid_and_tid pid tid] = filter_pass (add_pid_and_tid pid tid) ("hello".toList) := rfl
  rw [h3]
  unfold filter_pass
  have h4 : splitlines ("hello".toList) = ["hello".toList] := by decide
  rw [h4]
  have hne : add_pid_and_tid pid tid ("hello".toList) ≠ [] := by
    unfold add_pid_and_tid
    simp
  have hnl : '\n' ∉ add_pid_and_tid pid tid ("hello".toList) := by
    unfold add_pid_and_tid pyFmtD5
    intro hmem
    rcases List.mem_append.1 hmem with hmem1 | hmem1
    · rcases List.mem_append.1 hmem1 with hsp | hdd
      · simp [List.mem_replicate] at hsp
      · exact absurd (natDecDigits_all_digit pid '\n' hdd) (by decide)
    · rcases List.mem_cons.1 hmem1 with hdot | hmem2
      · exact absurd hdot (by decide)
      · rcases List.mem_append.1 hmem2 with hhex | htail
        · have hx : ∀ m, m < 16 → Nat.digitChar m ≠ '\n' := by decide
          simp only [hex4, List.mem_cons, List.not_mem_nil, or_false] at hhex
          rcases hhex with h | h | h | h
          all_goals exact absurd h.symm (hx _ (Nat.mod_lt _ (by omega)))
        · revert htail
          decide
  simp only [List.map_cons, List.map_nil]
  rw [splitlines_no_newline _ hne hnl]
  simp [intercalate_singleton]

/-- C5 (counterexample): with pid 123 — fewer than 5 digits, so the
`f"{pid:5d}"` field is space padded — and thread id 0, the output of
`DebugControlString(["pid"]).write("hello")` does not match the claimed
anchored pattern `^\d+\.[0-9a-f]{4}: hello\n$`. -/
theorem pidOutput_regex_counterexample :
    matchesPidHello (debugControlStringPidOutput 123 0 ("hello".toList)) = false := by
  decide

/-- C5 (amended): for every pid and thread id, the output of
`DebugControlString(["pid"]).write("hello")` matches
`^ *\d+\.[0-9a-f]{4}: hello\n$` — the pid is right-aligned in a 5-wide
space-padded field, then a dot, a 4-hex-digit folded thread id, a colon and a
space. -/
theorem pidOutput_matchesPadded (pid tid : Nat) :
    matchesPidHelloPadded (debugControlStringPidOutput pid tid ("hello".toList)) = true := by
  rw [debugControlStringPidOutput_eq]
  obtain ⟨d0, ds, hdd⟩ := List.exists_cons_of_ne_nil (natDecDigits_ne_nil pid)
  have hall := natDecDigits_all_digit pid
  have hd0 : d0.isDigit = true := hall d0 (by rw [hdd]; simp)
  have hshape : add_pid_and_tid pid tid ("hello".toList) ++ ['\n']
      = List.replicate (5 - (natDecDigits pid).length) ' '
        ++ (natDecDigits pid
        ++ ('.' :: Nat.digitChar (short_id tid / 4096 % 16)
           :: Nat.digitChar (short_id tid / 256 % 16)
           :: Nat.digitChar (short_id tid / 16 % 16)
           :: Nat.digitChar (short_id tid % 16)
           :: (": hello\n".toList))) := by
    unfold add_pid_and_tid pyFmtD5 hex4
    simp [List.append_assoc]
  rw [hshape]
  unfold matchesPidHelloPadded
  rw [dropWhile_append_of_all _ _ _
    (fun c hc => by rw [List.eq_of_mem_replicate hc]; rfl)]
  rw [dropWhile_eq_self_of_head _ _
    (fun c hc => by
      rw [hdd] at hc
      simp only [List.cons_append, List.head?_cons, Option.some.injEq] at hc
      rw [← hc]
      exact isDigit_beq_space_false d0 hd0)]
  unfold matchesPidHello
  rw [takeWhile_append_of_all _ _ _ hall,
      takeWhile_eq_nil_of_head _ _ (fun c hc => by
        simp only [List.head?_cons, Option.some.injEq] at hc
        rw [← hc]
        rfl)]
  rw [dropWhile_append_of_all _ _ _ hall,
      dropWhile_eq_self_of_head _ _ (fun c hc => by
        simp only [List.head?_cons, Option.some.injEq] at hc
        rw [← hc]
        rfl)]
  simp only [List.append_nil]
  have hx1 := digitChar_isLowerHex (short_id tid / 4096 % 16) (Nat.mod_lt _ (by omega))
  have hx2 := digitChar_isLowerHex (short_id tid / 256 % 16) (Nat.mod_lt _ (by omega))
  have hx3 := digitChar_isLowerHex (short_id tid / 16 % 16) (Nat.mod_lt _ (by omega))
  have hx4 := digitChar_isLowerHex (short_id tid % 16) (Nat.mod_lt _ (by omega))
  simp [hdd, hx1, hx2, hx3, hx4]

/-! ### Supporting lemmas for the banner claim -/

theorem not_mem_append2 {a : Char} {l1 l2 : List Char} (h1 : a ∉ l1) (h2 : a ∉ l2) :
    a ∉ l1 ++ l2 := fun h => (List.mem_append.1 h).elim h1 h2

theorem newline_not_mem_pyStrRepr (s : List Char) (hs : '\n' ∉ s) :
    '\n' ∉ pyStrRepr s := by
  intro h
  unfold pyStrRepr at h
  rcases List.mem_cons.1 h with h | h
  · exact absurd h (by decide)
  · rcases List.mem_append.1 h with h | h
    · exact hs h
    · exact absurd h (by decide)

theorem newline_not_mem_natDecDigits (n : Nat) : '\n' ∉ natDecDigits n := fun h =>
  absurd (natDecDigits_all_digit n '\n' h) (by decide)

theorem isDigit_pyWhitespace_false (c : Char) (h : c.isDigit = true) :
    pyWhitespace c = false := by
  unfold Char.isDigit at h
  obtain ⟨h1, h2⟩ := Bool.and_eq_true_iff.1 h
  have hna : 48 ≤ c.toNat := of_decide_eq_true h1
  unfold pyWhitespace
  have hx : decide (c ≤ '\x0d') = false := by
    apply decide_eq_false
    intro hle
    have hn : c.toNat ≤ 13 := hle
    omega
  have hy : (c == '\x20') = false := by
    cases hbe : c == '\x20'
    · rfl
    · rw [eq_of_beq hbe] at hna
      exact absurd hna (by decide)
  rw [hx, hy]
  simp

theorem mem_of_getLast?_eq (l : List Char) (a : Char) (h : l.getLast? = some a) :
    a ∈ l := by
  have h2 : a ∈ l.getLast? := Option.mem_def.2 h
  obtain ⟨hne, heq⟩ := List.mem_getLast?_eq_getLast h2
  rw [heq]
  exact List.getLast_mem hne

theorem getLast?_append_of_ne_nil (l1 l2 : List Char) (h : l2 ≠ []) :
    (l1 ++ l2).getLast? = l2.getLast? := by
  rw [← List.head?_reverse, ← List.head?_reverse, List.reverse_append]
  cases hl : l2.reverse with
  | nil =>
    have h2 : l2 = [] := by
      rw [← List.reverse_reverse l2, hl]
      rfl
    exact absurd h2 h
  | cons a t => simp [hl]

theorem pyStrRepr_getLast (s : List Char) : (pyStrRepr s).getLast? = some '\'' := by
  unfold pyStrRepr
  rw [← List.cons_append, List.getLast?_concat]

theorem intercalate_pair (sep a b : List Char) :
    List.intercalate sep [a, b] = a ++ sep ++ b := by
  simp [List.intercalate, List.intersperse]

theorem rstrip_split_newline (l : List Char)
    (h : ∀ c, l.getLast? = some c → pyWhitespace c = false) :
    rstripClean (l ++ ['\n']) = l ∧ rstripEnding (l ++ ['\n']) = ['\n'] := by
  have hrev : (l ++ ['\n']).reverse = '\n' :: l.reverse := by
    rw [List.reverse_append]
    rfl
  have hws : pyWhitespace '\n' = true := by decide
  have hdrop : ('\n' :: l.reverse).dropWhile pyWhitespace = l.reverse := by
    rw [List.dropWhile_cons, if_pos hws]
    exact dropWhile_eq_self_of_head _ _
      (fun c hc => h c (by rw [← List.head?_reverse]; exact hc))
  have htake : ('\n' :: l.reverse).takeWhile pyWhitespace = ['\n'] := by
    rw [List.takeWhile_cons, if_pos hws]
    rw [takeWhile_eq_nil_of_head _ _
      (fun c hc => h c (by rw [← List.head?_reverse]; exact hc))]
  constructor
  · unfold rstripClean
    rw [hrev, hdrop, List.reverse_reverse]
  · unfold rstripEnding
    rw [hrev, htake]
    rfl

/-- Evaluation of one `show_process` sink write of a single line plus its
newline: the cwd announcement is prepended exactly when the tracker state
differs from the observed directory, and the state records the directory. -/
theorem sinkWriteSP_eq (cwd line : List Char) (st : Option (List Char))
    (hne : line ≠ []) (hnl : '\n' ∉ line)
    (hlast : ∀ c, line.getLast? = some c → pyWhitespace c = false)
    (hcwd : '\n' ∉ cwd) :
    sinkWriteSP cwd st (line ++ ['\n'])
      = if some cwd ≠ st
        then ((("cwd is now ".toList ++ pyStrRepr cwd) ++ '\n' :: line) ++ ['\n'], some cwd)
        else (line ++ ['\n'], st) := by
  obtain ⟨hclean, hend⟩ := rstrip_split_newline line hlast
  unfold sinkWriteSP cwdPass
  rw [hclean, hend, splitlines_no_newline line hne hnl]
  have hcwdline : '\n' ∉ "cwd is now ".toList ++ pyStrRepr cwd :=
    not_mem_append2 (by decide) (newline_not_mem_pyStrRepr cwd hcwd)
  by_cases hst : some cwd ≠ st
  · rw [if_pos hst]
    simp only [cwdPassLines, cwdFilter, if_pos hst]
    have hshape : ("cwd is now ".toList ++ pyStrRepr cwd ++ ['\n']) ++ line
        = ("cwd is now ".toList ++ pyStrRepr cwd) ++ '\n' :: line := by
      simp [List.append_assoc]
    rw [hshape, splitlines_append_newline _ _ hcwdline,
        splitlines_no_newline line hne hnl]
    simp only [List.append_nil, intercalate_pair]
    simp [List.append_assoc]
  · rw [if_neg hst]
    simp only [cwdPassLines, cwdFilter, if_neg hst]
    simp [splitlines_no_newline line hne hnl, intercalate_singleton]

/-- C10: a fresh `CwdTracker` has no last-seen directory, so its first filter
invocation always prepends the `cwd is now` announcement (the output is never
the unchanged input) and records the observed directory, whatever that
directory is; once the directory has been recorded, an invocation with the
same directory returns its input unchanged. -/
theorem cwdTracker_first_invocation (cwd text : List Char) :
    (cwdFilter CwdTracker.init cwd text).1
      = ("cwd is now ".toList ++ pyStrRepr cwd ++ ['\n']) ++ text
    ∧ (cwdFilter CwdTracker.init cwd text).2 = some cwd
    ∧ (cwdFilter CwdTracker.init cwd text).1 ≠ text
    ∧ (cwdFilter (some cwd) cwd text).1 = text := by
  refine ⟨rfl, rfl, ?_, ?_⟩
  · intro h
    have hlen := congrArg List.length h
    simp [cwdFilter, CwdTracker.init, pyStrRepr] at hlen
    omega
  · simp [cwdFilter]

/-- C6 (counterexample): on a platform that cannot supply a parent process id
(`ppid = none`, no `os.getppid`), the construction of a `show_process` sink
emits only 2 banner lines, not 3 — the whole pid line is omitted, not just
the parent id. -/
theorem banner_ppid_counterexample :
    bannerLineCount (sinkInitOutput "py".toList "['py']".toList 7 none "/w".toList).1 = 2
    ∧ bannerLineCount (sinkInitOutput "py".toList "['py']".toList 7 none "/w".toList).1 ≠ 3 := by
  constructor
  · decide
  · decide

theorem isPrefixOf_append_self (p r : List Char) : p.isPrefixOf (p ++ r) = true := by
  induction p with
  | nil => simp [List.isPrefixOf]
  | cons a as ih => simp [List.isPrefixOf, ih]

/-- C6 (amended): a `show_process` sink's construction output consists of the
cwd announcement (prepended by the cwd filter inserted at the front of the
chain) followed by the banner lines: exactly 3 banner lines when the platform
supplies a parent pid, and only 2 — the whole pid line omitted — when it does
not; afterwards the tracker has recorded the directory.  (Hypotheses: paths
and the argv rendering contain no newline, and the argv rendering is a
nonempty `repr` not ending in whitespace.) -/
theorem banner_shows_process (exe argvRepr cwd : List Char) (pid pp : Nat)
    (hexe : '\n' ∉ exe) (hargv : '\n' ∉ argvRepr) (hcwd : '\n' ∉ cwd)
    (hargvne : argvRepr ≠ [])
    (hargvLast : ∀ c, argvRepr.getLast? = some c → pyWhitespace c = false) :
    splitlines (sinkInitOutput exe argvRepr pid (some pp) cwd).1
      = [cwdAnnouncement cwd, bannerLine1 exe, bannerLine2 argvRepr, bannerLine3 pid pp]
    ∧ bannerLineCount (sinkInitOutput exe argvRepr pid (some pp) cwd).1 = 3
    ∧ (sinkInitOutput exe argvRepr pid (some pp) cwd).2 = some cwd
    ∧ splitlines (sinkInitOutput exe argvRepr pid none cwd).1
      = [cwdAnnouncement cwd, bannerLine1 exe, bannerLine2 argvRepr]
    ∧ bannerLineCount (sinkInitOutput exe argvRepr pid none cwd).1 = 2 := by
  have hprne : pyStrRepr exe ≠ [] := by
    unfold pyStrRepr
    simp
  have hne1 : bannerLine1 exe ≠ [] := by
    unfold bannerLine1
    intro h
    rw [List.append_eq_nil] at h
    exact absurd h.1 (by decide)
  have hnl1 : '\n' ∉ bannerLine1 exe :=
    not_mem_append2 (by decide) (newline_not_mem_pyStrRepr exe hexe)
  have hlast1 : ∀ c, (bannerLine1 exe).getLast? = some c → pyWhitespace c = false := by
    intro c hc
    unfold bannerLine1 at hc
    rw [getLast?_append_of_ne_nil _ _ hprne, pyStrRepr_getLast] at hc
    injection hc with hc
    rw [← hc]
    rfl
  have hne2 : bannerLine2 argvRepr ≠ [] := by
    unfold bannerLine2
    intro h
    rw [List.append_eq_nil] at h
    exact absurd h.1 (by decide)
  have hnl2 : '\n' ∉ bannerLine2 argvRepr := not_mem_append2 (by decide) hargv
  have hlast2 : ∀ c, (bannerLine2 argvRepr).getLast? = some c → pyWhitespace c = false := by
    intro c hc
    unfold bannerLine2 at hc
    rw [getLast?_append_of_ne_nil _ _ hargvne] at hc
    exact hargvLast c hc
  have hppne : natDecDigits pp ≠ [] := natDecDigits_ne_nil pp
  have hne3 : bannerLine3 pid pp ≠ [] := by
    unfold bannerLine3
    intro h
    rw [List.append_eq_nil, List.append_eq_nil, List.append_eq_nil] at h
    exact absurd h.1.1.1 (by decide)
  have hnl3 : '\n' ∉ bannerLine3 pid pp :=
    not_mem_append2
      (not_mem_append2
        (not_mem_append2 (by decide) (newline_not_mem_natDecDigits pid))
        (by decide))
      (newline_not_mem_natDecDigits pp)
  have hlast3 : ∀ c, (bannerLine3 pid pp).getLast? = some c → pyWhitespace c = false := by
    intro c hc
    unfold bannerLine3 at hc
    rw [getLast?_append_of_ne_nil _ _ hppne] at hc
    exact isDigit_pyWhitespace_false c
      (natDecDigits_all_digit pp c (mem_of_getLast?_eq _ c hc))
  have hs1 : sinkWriteSP cwd CwdTracker.init (bannerLine1 exe ++ ['\n'])
      = ((cwdAnnouncement cwd ++ '\n' :: bannerLine1 exe) ++ ['\n'], some cwd) := by
    rw [sinkWriteSP_eq cwd (bannerLine1 exe) CwdTracker.init hne1 hnl1 hlast1 hcwd]
    rw [if_pos (by unfold CwdTracker.init; simp)]
    rfl
  have hs2 : sinkWriteSP cwd (some cwd) (bannerLine2 argvRepr ++ ['\n'])
      = (bannerLine2 argvRepr ++ ['\n'], some cwd) := by
    rw [sinkWriteSP_eq cwd (bannerLine2 argvRepr) (some cwd) hne2 hnl2 hlast2 hcwd]
    rw [if_neg (by simp)]
  have hs3 : sinkWriteSP cwd (some cwd) (bannerLine3 pid pp ++ ['\n'])
      = (bannerLine3 pid pp ++ ['\n'], some cwd) := by
    rw [sinkWriteSP_eq cwd (bannerLine3 pid pp) (some cwd) hne3 hnl3 hlast3 hcwd]
    rw [if_neg (by simp)]
  have hout3 : sinkInitOutput exe argvRepr pid (some pp) cwd
      = ((((cwdAnnouncement cwd ++ '\n' :: bannerLine1 exe) ++ ['\n'])
          ++ (bannerLine2 argvRepr ++ ['\n'])) ++ (bannerLine3 pid pp ++ ['\n']),
         some cwd) := by
    unfold sinkInitOutput bannerWrites
    simp only [List.cons_append, List.nil_append, List.foldl_cons, List.foldl_nil]
    rw [hs1]
    simp only []
    rw [hs2, hs3]
  have hout2 : sinkInitOutput exe argvRepr pid none cwd
      = (((cwdAnnouncement cwd ++ '\n' :: bannerLine1 exe) ++ ['\n'])
          ++ (bannerLine2 argvRepr ++ ['\n']),
         some cwd) := by
    unfold sinkInitOutput bannerWrites
    simp only [List.cons_append, List.nil_append, List.foldl_cons, List.foldl_nil]
    rw [hs1]
    simp only []
    rw [hs2]
  have hcwdann : '\n' ∉ cwdAnnouncement cwd :=
    not_mem_append2 (by decide) (newline_not_mem_pyStrRepr cwd hcwd)
  have hsplit3 : splitlines (sinkInitOutput exe argvRepr pid (some pp) cwd).1
      = [cwdAnnouncement cwd, bannerLine1 exe, bannerLine2 argvRepr, bannerLine3 pid pp] := by
    rw [hout3]
    have hshape : ((((cwdAnnouncement cwd ++ '\n' :: bannerLine1 exe) ++ ['\n'])
          ++ (bannerLine2 argvRepr ++ ['\n'])) ++ (bannerLine3 pid pp ++ ['\n']))
        = cwdAnnouncement cwd ++ '\n' :: (bannerLine1 exe
            ++ '\n' :: (bannerLine2 argvRepr ++ '\n' :: (bannerLine3 pid pp ++ ['\n']))) := by
      simp [List.append_assoc]
    rw [hshape, splitlines_append_newline _ _ hcwdann,
        splitlines_append_newline _ _ hnl1, splitlines_append_newline _ _ hnl2,
        splitlines_append_newline _ _ hnl3, splitlines_nil]
  have hsplit2 : splitlines (sinkInitOutput exe argvRepr pid none cwd).1
      = [cwdAnnouncement cwd, bannerLine1 exe, bannerLine2 argvRepr] := by
    rw [hout2]
    have hshape : (((cwdAnnouncement cwd ++ '\n' :: bannerLine1 exe) ++ ['\n'])
          ++ (bannerLine2 argvRepr ++ ['\n']))
        = cwdAnnouncement cwd ++ '\n' :: (bannerLine1 exe
            ++ '\n' :: (bannerLine2 argvRepr ++ ['\n'])) := by
      simp [List.append_assoc]
    rw [hshape, splitlines_append_newline _ _ hcwdann,
        splitlines_append_newline _ _ hnl1, splitlines_append_newline _ _ hnl2,
        splitlines_nil]
  have hpc : ("New process: ".toList).isPrefixOf (cwdAnnouncement cwd) = false := rfl
  have hp1 : ("New process: ".toList).isPrefixOf (bannerLine1 exe) = true := by
    have c1 : "New process: executable: ".toList
        = "New process: ".toList ++ "executable: ".toList := by decide
    unfold bannerLine1
    rw [c1, List.append_assoc]
    exact isPrefixOf_append_self _ _
  have hp2 : ("New process: ".toList).isPrefixOf (bannerLine2 argvRepr) = true := by
    have c2 : "New process: cmd: ".toList
        = "New process: ".toList ++ "cmd: ".toList := by decide
    unfold bannerLine2
    rw [c2, List.append_assoc]
    exact isPrefixOf_append_self _ _
  have hp3 : ("New process: ".toList).isPrefixOf (bannerLine3 pid pp) = true := by
    have c3 : "New process: pid: ".toList
        = "New process: ".toList ++ "pid: ".toList := by decide
    unfold bannerLine3
    rw [c3, List.append_assoc, List.append_assoc, List.append_assoc]
    exact isPrefixOf_append_self _ _
  refine ⟨hsplit3, ?_, by rw [hout3], hsplit2, ?_⟩
  · unfold bannerLineCount
    rw [hsplit3]
    simp only [List.filter_cons, List.filter_nil, hpc, hp1, hp2, hp3]
    simp
  · unfold bannerLineCount
    rw [hsplit2]
    simp only [List.filter_cons, List.filter_nil, hpc, hp1, hp2]
    simp

/-- Witness for the amended C6 theorem at a concrete executable, argv
rendering, directory and pids. -/
theorem banner_shows_process_witness :
    bannerLineCount (sinkInitOutput "py".toList "['py']".toList 7 (some 3) "/w".toList).1 = 3
    ∧ bannerLineCount (sinkInitOutput "py".toList "['py']".toList 7 none "/w".toList).1 = 2 :=
  ⟨(banner_shows_process "py".toList "['py']".toList "/w".toList 7 3
      (by decide) (by decide) (by decide) (by decide)
      (fun c hc => by
        have hl : "['py']".toList.getLast? = some ']' := by decide
        rw [hl] at hc
        injection hc with hc
        rw [← hc]
        rfl)).2.1,
   (banner_shows_process "py".toList "['py']".toList "/w".toList 7 3
      (by decide) (by decide) (by decide) (by decide)
      (fun c hc => by
        have hl : "['py']".toList.getLast? = some ']' := by decide
        rw [hl] at hc
        injection hc with hc
        rw [← hc]
        rfl)).2.2.2.2⟩

/-- C7 (counterexample): on a 3-frame stack — `short_stack`'s own frame, its
direct caller, and the root — the first rendered line is the ROOT frame, not
the direct caller's line in the claimed `<name> : <path>@<line>` format; the
direct caller appears last, rendered with `:` before the line number. -/
theorem short_stack_order_counterexample :
    (shortStackLines
        [⟨"debug.py".toList, 10, "short_stack".toList⟩,
         ⟨"a.py".toList, 20, "caller".toList⟩,
         ⟨"b.py".toList, 30, "main".toList⟩] none 0).head?
      ≠ some (claimFrameLine ⟨"a.py".toList, 20, "caller".toList⟩)
    ∧ (shortStackLines
        [⟨"debug.py".toList, 10, "short_stack".toList⟩,
         ⟨"a.py".toList, 20, "caller".toList⟩,
         ⟨"b.py".toList, 30, "main".toList⟩] none 0).head?
      = some (frameLine ⟨"b.py".toList, 30, "main".toList⟩)
    ∧ (shortStackLines
        [⟨"debug.py".toList, 10, "short_stack".toList⟩,
         ⟨"a.py".toList, 20, "caller".toList⟩,
         ⟨"b.py".toList, 30, "main".toList⟩] none 0).getLast?
      = some (frameLine ⟨"a.py".toList, 20, "caller".toList⟩) := by
  refine ⟨by decide, by decide, by decide⟩

/-- C7 (amended): `short_stack` renders one line per frame as
`<name padded to 30> : <path>:<line>`, in root-first order — the direct
caller (frame `skip + 1`; frames `0..skip` are excluded) appears LAST, not
first; a given `limit` bounds the result to at most `limit` frames (the
nearest ones). -/
theorem short_stack_amended (stack : List FrameSummary) (skip : Nat)
    (h : skip + 1 < stack.length) :
    shortStackLines stack none skip = ((stack.drop (skip + 1)).map frameLine).reverse
    ∧ (shortStackLines stack none skip).getLast?
      = some (frameLine (stack.get ⟨skip + 1, h⟩))
    ∧ (∀ L : Nat, (shortStackLines stack (some L) skip).length ≤ L) := by
  have h1 : shortStackLines stack none skip
      = ((stack.drop (skip + 1)).map frameLine).reverse := by
    unfold shortStackLines pySliceRev
    have hlen : stack.length - 1 + 1 = stack.length := by omega
    rw [hlen, List.take_length, List.map_reverse]
  refine ⟨h1, ?_, ?_⟩
  · rw [h1, ← List.head?_reverse, List.reverse_reverse, List.head?_map]
    have hd : (stack.drop (skip + 1)).head? = some (stack.get ⟨skip + 1, h⟩) := by
      rw [← List.get?_zero, List.get?_drop]
      exact List.get?_eq_get h
    rw [hd]
    rfl
  · intro L
    unfold shortStackLines pySliceRev
    simp only [List.length_map, List.length_reverse, List.length_drop,
      List.length_take]
    omega

/-- Witness for the amended C7 theorem at a concrete 3-frame stack. -/
theorem short_stack_amended_witness :
    shortStackLines
        [⟨"x.py".toList, 1, "own".toList⟩,
         ⟨"y.py".toList, 2, "call".toList⟩,
         ⟨"z.py".toList, 3, "root".toList⟩] none 0
      = (([⟨"x.py".toList, 1, "own".toList⟩,
           ⟨"y.py".toList, 2, "call".toList⟩,
           ⟨"z.py".toList, 3, "root".toList⟩].drop 1).map frameLine).reverse :=
  (short_stack_amended
    [⟨"x.py".toList, 1, "own".toList⟩,
     ⟨"y.py".toList, 2, "call".toList⟩,
     ⟨"z.py".toList, 3, "root".toList⟩] 0 (by decide)).1

end CoverageDebug
